import Mathlib

/-!
Verification of the tiktok-uploader scheduled-publish pipeline.

Shallow embedding of the scheduling, description-building and upload-form
logic of `process_videos.py` and `src/tiktok_uploader/upload.py`.

Conventions used throughout:
* Instants of time are modelled as microseconds (`Nat`, or `Int` where
  UTC-offset subtraction may occur), measured from the local midnight of a
  reference day.  Python's `datetime.now().astimezone()` yields a
  fixed-offset aware datetime, so wall-clock arithmetic coincides with
  instant arithmetic and the `Nat`/`Int` microsecond model is faithful.
* `datetime.hour` of an instant `t` is `t / usPerHour % 24`, `.minute` is
  `t / usPerMin % 60`; `replace(hour := h, minute := 0, second := 0,
  microsecond := 0)` is `dayStart t + h * usPerHour`.
-/

/-! ## Time units and configuration constants (process_videos.py) -/

def usPerMin : Nat := 60000000

def usPerHour : Nat := 60 * usPerMin

def usPerDay : Nat := 24 * usPerHour

/-- Model of `WINDOW_START_HOUR = 9` in process_videos.py. -/
def WINDOW_START_HOUR : Nat := 9

/-- Model of `WINDOW_END_HOUR = 22` in process_videos.py. -/
def WINDOW_END_HOUR : Nat := 22

/-- Model of `SCHEDULE_BUFFER_MIN = 25` in process_videos.py. -/
def SCHEDULE_BUFFER_MIN : Nat := 25

/-- Model of `datetime.hour` of an instant expressed in µs since local midnight. -/
def hourOf (t : Nat) : Nat := t / usPerHour % 24

/-- Start (midnight) of the local day containing `t`. -/
def dayStart (t : Nat) : Nat := t / usPerDay * usPerDay

/-- Model of `t.replace(hour := h, minute := 0, second := 0, microsecond := 0)`. -/
def atHour (t h : Nat) : Nat := dayStart t + h * usPerHour

/-- The round-up-to-whole-hour step of `next_upload_slots`:
`if earliest.minute > 0 or earliest.second > 0 or earliest.microsecond > 0`
then floor to the hour and add one hour, else keep the instant
(`replace(second=0, microsecond=0)` is the identity on an hour-aligned
instant). -/
def ceilHour (t : Nat) : Nat :=
  if t % usPerHour = 0 then t else t / usPerHour * usPerHour + usPerHour

/-- The "push into the window" step of `next_upload_slots` applied to the
first candidate. -/
def clampInit (c : Nat) : Nat :=
  if hourOf c < WINDOW_START_HOUR then atHour c WINDOW_START_HOUR
  else if WINDOW_END_HOUR < hourOf c then atHour (c + usPerDay) WINDOW_START_HOUR
  else c

/-- One iteration of the slot-emitting loop: advance one hour, and wrap to
`WINDOW_START_HOUR` of the next day when the hour passes `WINDOW_END_HOUR`. -/
def nextSlot (c : Nat) : Nat :=
  if WINDOW_END_HOUR < hourOf (c + usPerHour) then
    atHour (c + usPerHour + usPerDay) WINDOW_START_HOUR
  else c + usPerHour

/-- The `while len(slots) < count` loop of `next_upload_slots`. -/
def slotsFrom (c : Nat) : Nat → List Nat
  | 0 => []
  | n + 1 => c :: slotsFrom (nextSlot c) n

/-- Model of `earliest = now + buffer`, raised to `max(earliest, last_slot + 1h)`
when a previous run booked a slot. -/
def earliestOf (now : Nat) (last_slot : Option Nat) : Nat :=
  match last_slot with
  | some l => max (now + SCHEDULE_BUFFER_MIN * usPerMin) (l + usPerHour)
  | none => now + SCHEDULE_BUFFER_MIN * usPerMin

/-- Model of `next_upload_slots(count, last_slot)` from process_videos.py, with the
ambient `datetime.now().astimezone()` made an explicit parameter `now`. -/
def next_upload_slots (now : Nat) (count : Nat) (last_slot : Option Nat) :
    List Nat :=
  slotsFrom (clampInit (ceilHour (earliestOf now last_slot))) count

/-! ### Arithmetic facts about the slot generator -/

theorem hourOf_atHour (t h : Nat) (hh : h < 24) : hourOf (atHour t h) = h := by
  simp only [hourOf, atHour, dayStart, usPerDay, usPerHour, usPerMin]
  omega

theorem window_clampInit (c : Nat) :
    WINDOW_START_HOUR ≤ hourOf (clampInit c) ∧
      hourOf (clampInit c) ≤ WINDOW_END_HOUR := by
  unfold clampInit
  split
  · rw [hourOf_atHour _ _ (by norm_num [WINDOW_START_HOUR])]
    norm_num [WINDOW_START_HOUR, WINDOW_END_HOUR]
  · split
    · rw [hourOf_atHour _ _ (by norm_num [WINDOW_START_HOUR])]
      norm_num [WINDOW_START_HOUR, WINDOW_END_HOUR]
    · omega

theorem window_nextSlot (c : Nat)
    (hc : WINDOW_START_HOUR ≤ hourOf c ∧ hourOf c ≤ WINDOW_END_HOUR) :
    WINDOW_START_HOUR ≤ hourOf (nextSlot c) ∧
      hourOf (nextSlot c) ≤ WINDOW_END_HOUR := by
  unfold nextSlot
  split
  · rw [hourOf_atHour _ _ (by norm_num [WINDOW_START_HOUR])]
    norm_num [WINDOW_START_HOUR, WINDOW_END_HOUR]
  · rename_i hle
    simp only [hourOf, usPerHour, usPerMin, WINDOW_START_HOUR, WINDOW_END_HOUR] at *
    omega

theorem lt_nextSlot (c : Nat) : c < nextSlot c := by
  unfold nextSlot atHour dayStart
  split
  · simp only [usPerDay, usPerHour, usPerMin, WINDOW_START_HOUR]
    omega
  · simp only [usPerHour, usPerMin]
    omega

theorem le_clampInit (c : Nat) : c ≤ clampInit c := by
  unfold clampInit atHour dayStart
  split
  · rename_i hlt
    simp only [hourOf, usPerDay, usPerHour, usPerMin, WINDOW_START_HOUR] at *
    omega
  · split
    · simp only [usPerDay, usPerHour, usPerMin, WINDOW_START_HOUR]
      omega
    · exact Nat.le_refl c

theorem le_ceilHour (t : Nat) : t ≤ ceilHour t := by
  unfold ceilHour
  split
  · exact Nat.le_refl t
  · simp only [usPerHour, usPerMin]
    omega

theorem ceilHour_mono {a b : Nat} (h : a ≤ b) : ceilHour a ≤ ceilHour b := by
  unfold ceilHour
  split <;> split <;> simp only [usPerHour, usPerMin] at * <;> omega

theorem length_slotsFrom (c n : Nat) : (slotsFrom c n).length = n := by
  induction n generalizing c with
  | zero => rfl
  | succ n ih => simp [slotsFrom, ih]

theorem mem_slotsFrom_le {c n x : Nat} (hx : x ∈ slotsFrom c n) : c ≤ x := by
  induction n generalizing c with
  | zero => simp [slotsFrom] at hx
  | succ n ih =>
    simp only [slotsFrom, List.mem_cons] at hx
    rcases hx with rfl | hx
    · exact Nat.le_refl x
    · exact Nat.le_trans (Nat.le_of_lt (lt_nextSlot c)) (ih hx)

theorem window_slotsFrom {c n : Nat}
    (hc : WINDOW_START_HOUR ≤ hourOf c ∧ hourOf c ≤ WINDOW_END_HOUR) :
    ∀ x ∈ slotsFrom c n,
      WINDOW_START_HOUR ≤ hourOf x ∧ hourOf x ≤ WINDOW_END_HOUR := by
  induction n generalizing c with
  | zero => simp [slotsFrom]
  | succ n ih =>
    intro x hx
    simp only [slotsFrom, List.mem_cons] at hx
    rcases hx with rfl | hx
    · exact hc
    · exact ih (window_nextSlot c hc) x hx

theorem pairwise_slotsFrom (c n : Nat) :
    (slotsFrom c n).Pairwise (· < ·) := by
  induction n generalizing c with
  | zero => exact List.Pairwise.nil
  | succ n ih =>
    refine List.Pairwise.cons ?_ (ih (nextSlot c))
    intro x hx
    exact Nat.lt_of_lt_of_le (lt_nextSlot c) (mem_slotsFrom_le hx)

/-- C1 — The slot scheduler meets its contract: `count` elements, every
element's local hour inside `[WINDOW_START_HOUR, WINDOW_END_HOUR]`, strictly
increasing, first element at least `now + 25 min` rounded up to an exact
hour boundary, and strictly after `last_slot` when one is given. -/
theorem next_upload_slots_spec (now count : Nat) (last_slot : Option Nat)
    (hc : 0 < count) :
    (next_upload_slots now count last_slot).length = count ∧
    (∀ s ∈ next_upload_slots now count last_slot,
      WINDOW_START_HOUR ≤ hourOf s ∧ hourOf s ≤ WINDOW_END_HOUR) ∧
    (next_upload_slots now count last_slot).Pairwise (· < ·) ∧
    (∀ s0, (next_upload_slots now count last_slot).head? = some s0 →
      ceilHour (now + SCHEDULE_BUFFER_MIN * usPerMin) ≤ s0 ∧
      (∀ l, last_slot = some l → l < s0)) := by
  unfold next_upload_slots
  refine ⟨length_slotsFrom _ count,
    window_slotsFrom (window_clampInit _), pairwise_slotsFrom _ count, ?_⟩
  intro s0 hs0
  obtain ⟨n, rfl⟩ : ∃ n, count = n + 1 := ⟨count - 1, by omega⟩
  simp only [slotsFrom, List.head?_cons, Option.some.injEq] at hs0
  subst hs0
  have h1 : now + SCHEDULE_BUFFER_MIN * usPerMin ≤ earliestOf now last_slot := by
    cases last_slot with
    | none => exact Nat.le_refl _
    | some l => exact Nat.le_max_left _ _
  constructor
  · exact Nat.le_trans (ceilHour_mono h1) (le_clampInit _)
  · intro l hl
    subst hl
    have h2 : l + usPerHour ≤ earliestOf now (some l) := Nat.le_max_right _ _
    have h3 : earliestOf now (some l) ≤
        clampInit (ceilHour (earliestOf now (some l))) :=
      Nat.le_trans (le_ceilHour _) (le_clampInit _)
    have hH : 0 < usPerHour := by norm_num [usPerHour, usPerMin]
    omega

/-- Witness for C1 at `now = 0`, `count = 1`, `last_slot = some 0`. -/
theorem next_upload_slots_spec_witness :
    0 < 1 ∧
    ((next_upload_slots 0 1 (some 0)).length = 1 ∧
    (∀ s ∈ next_upload_slots 0 1 (some 0),
      WINDOW_START_HOUR ≤ hourOf s ∧ hourOf s ≤ WINDOW_END_HOUR) ∧
    (next_upload_slots 0 1 (some 0)).Pairwise (· < ·) ∧
    (∀ s0, (next_upload_slots 0 1 (some 0)).head? = some s0 →
      ceilHour (0 + SCHEDULE_BUFFER_MIN * usPerMin) ≤ s0 ∧
      (∀ l, (some 0 : Option Nat) = some l → l < s0))) :=
  ⟨by decide, next_upload_slots_spec 0 1 (some 0) (by decide)⟩

/-- C2 counterexample — with `now = 08:50` local, no prior state and three
pending files, the scheduler does *not* return 09:00/10:00/11:00:
`08:50 + 25 min = 09:15`, which rounds *up* to 10:00. -/
theorem c2_counterexample :
    next_upload_slots (8 * usPerHour + 50 * usPerMin) 3 none ≠
      [9 * usPerHour, 10 * usPerHour, 11 * usPerHour] := by decide

/-- C2 amended — with `now = 08:50` local, no prior state and three pending
files, the scheduler returns 10:00, 11:00 and 12:00 of the same local day. -/
theorem c2_amended :
    next_upload_slots (8 * usPerHour + 50 * usPerMin) 3 none =
      [10 * usPerHour, 11 * usPerHour, 12 * usPerHour] := by decide

/-! ## Shared Python-string helpers -/

/-- Python ASCII whitespace: the class `\s` and the default `str.strip()` /
`str.split()` separator set (space, tab, LF, CR, VT, FF). -/
def pyIsSpace (c : Char) : Bool :=
  c == ' ' || c == '\t' || c == '\n' || c.toNat == 13 || c.toNat == 11 ||
    c.toNat == 12

def pyStripList (l : List Char) : List Char :=
  ((l.dropWhile pyIsSpace).reverse.dropWhile pyIsSpace).reverse

/-- Python `str.strip()` (no argument). -/
def pyStrip (s : String) : String := String.mk (pyStripList s.toList)

/-- Python `str.split(sep)` for a single-character separator (keeps empty
pieces), as a scan over the character list. -/
def splitOnCharGo (sep : Char) (cur : List Char) : List Char → List (List Char)
  | [] => [cur.reverse]
  | c :: cs =>
    if c == sep then cur.reverse :: splitOnCharGo sep [] cs
    else splitOnCharGo sep (c :: cur) cs

def splitOnChar (sep : Char) (l : List Char) : List (List Char) :=
  splitOnCharGo sep [] l

/-! ## Description compiler (process_videos.py) -/

def MUSIC_TAGS : String :=
  "#SpeedRecords #TikTokVideos #TimesMusic #TrendingSongs #HitSong #PunjabiTikTok"

def DEFAULT_TAGS : String := "#SpeedRecords #TikTokVideos #PunjabiTikTok"

def isOpenBracket (c : Char) : Bool := c == '(' || c == '[' || c.toNat == 123

def isCloseBracket (c : Char) : Bool := c == ')' || c == ']' || c.toNat == 125

/-- One leftmost match of the regex `\s*[\(\[\{][^\)\]\}]*[\)\]\}]` anchored
at the head of `l`: optional whitespace, an opening bracket, a maximal run
of non-closing-bracket characters, one closing bracket.  Returns the suffix
after the match when the pattern matches here. -/
def bracketMatch (l : List Char) : Option (List Char) :=
  match l.dropWhile pyIsSpace with
  | [] => none
  | c :: rest =>
    if isOpenBracket c then
      match rest.dropWhile (fun x => !isCloseBracket x) with
      | [] => none
      | _ :: rest2 => some rest2
    else none

/-- Model of `re.sub(r"\s*[\(\[\{][^\)\]\}]*[\)\]\}]", "", text)`: delete every
leftmost, non-overlapping bracketed annotation.  Fuel-structured so the
kernel can evaluate it; `fuel = l.length` always suffices because every
step consumes at least one character. -/
def subBracketsGo : Nat → List Char → List Char
  | 0, l => l
  | _ + 1, [] => []
  | fuel + 1, c :: cs =>
    match bracketMatch (c :: cs) with
    | some rest => subBracketsGo fuel rest
    | none => c :: subBracketsGo fuel cs

def subBrackets (l : List Char) : List Char := subBracketsGo l.length l

/-- The character class of `re.sub(r"[\"\'`\-–—]+", " ", text)`: double
quote, single quote, backtick, hyphen, en dash, em dash.  (The quote-like
characters are named by code point to keep the source plain ASCII.) -/
def isStrayPunct (c : Char) : Bool :=
  c.toNat == 34 || c.toNat == 39 || c.toNat == 96 || c == '-' ||
    c.toNat == 8211 || c.toNat == 8212

/-- Model of `re.sub(r"[\"\'`\-–—]+", " ", text)`: each maximal run of stray
punctuation becomes one space. -/
def subPunctGo : Nat → List Char → List Char
  | 0, l => l
  | _ + 1, [] => []
  | fuel + 1, c :: cs =>
    if isStrayPunct c then ' ' :: subPunctGo fuel (cs.dropWhile isStrayPunct)
    else c :: subPunctGo fuel cs

/-- Model of `_clean_text` from process_videos.py: strip bracketed annotations, then
replace punctuation runs by spaces, then `str.strip()`. -/
def _clean_text (s : String) : String :=
  let b := subBrackets s.toList
  String.mk (pyStripList (subPunctGo b.length b))

/-- Python `str.split()` with no argument: split on whitespace runs,
dropping empty pieces. -/
def splitWsGo : Nat → List Char → List (List Char)
  | 0, _ => []
  | _ + 1, [] => []
  | fuel + 1, c :: cs =>
    if pyIsSpace c then splitWsGo fuel cs
    else (c :: cs.takeWhile (fun x => !pyIsSpace x)) ::
      splitWsGo fuel (cs.dropWhile (fun x => !pyIsSpace x))

/-- Python `str.capitalize()`: first character upper-cased, the remaining
characters lower-cased (ASCII). -/
def pyCapitalize (w : List Char) : List Char :=
  match w with
  | [] => []
  | c :: rest => c.toUpper :: rest.map Char.toLower

/-- Model of `_to_hashtag` from process_videos.py. -/
def _to_hashtag (s : String) : String :=
  let cleaned := (_clean_text s).toList
  let replaced := cleaned.map (fun c => if c == '-' || c == '_' then ' ' else c)
  let words := splitWsGo replaced.length replaced
  String.mk ('#' :: (words.map pyCapitalize).flatten)

/-- Case-insensitive literal prefix match (pattern given lower-case),
returning the suffix after the literal. -/
def stripLit : List Char → List Char → Option (List Char)
  | [], l => some l
  | _, [] => none
  | p :: ps, c :: cs => if c.toLower == p then stripLit ps cs else none

/-- One leftmost match of `\s*(?:&|,|ft\.|feat\.)\s*` (IGNORECASE) anchored
at the head of `l`: returns the suffix after the separator. -/
def artistSepMatch (l : List Char) : Option (List Char) :=
  let t := l.dropWhile pyIsSpace
  let lit :=
    match t with
    | [] => none
    | c :: rest =>
      if c == '&' || c == ',' then some rest
      else
        match stripLit ['f', 't', '.'] t with
        | some r => some r
        | none => stripLit ['f', 'e', 'a', 't', '.'] t
  match lit with
  | some r => some (r.dropWhile pyIsSpace)
  | none => none

/-- Model of `re.split(r"\s*(?:&|,|ft\.|feat\.)\s*", artist, flags=re.IGNORECASE)`,
keeping empty pieces, as a fuel-structured scan. -/
def artistSplitGo : Nat → List Char → List Char → List String
  | 0, cur, rest => [String.mk (cur.reverse ++ rest)]
  | _ + 1, cur, [] => [String.mk cur.reverse]
  | fuel + 1, cur, c :: cs =>
    match artistSepMatch (c :: cs) with
    | some r => String.mk cur.reverse :: artistSplitGo fuel [] r
    | none => artistSplitGo fuel (c :: cur) cs

def artistSplit (s : String) : List String :=
  artistSplitGo s.toList.length [] s.toList

/-- The `"track"` value of a Shazam result: `track.get("title", "")` and
`track.get("subtitle", "")` are modelled by optional fields. -/
structure Track where
  title? : Option String
  subtitle? : Option String

/-- A Shazam result as consumed by `build_description`: Python `None` (or a
falsy empty dict), a truthy dict without a `"track"` key, or a dict whose
`"track"` key holds a track. -/
inductive ShazamRes
  | pyNone
  | noTrack
  | withTrack (t : Track)

/-- Python `" ".join(parts)`. -/
def joinSpace : List String → String
  | [] => ""
  | [s] => s
  | s :: rest => s ++ " " ++ joinSpace rest

/-- Model of `build_description` from process_videos.py. -/
def build_description (r : ShazamRes) : String :=
  match r with
  | .withTrack tr =>
    let title := pyStrip (tr.title?.getD "")
    let artist := pyStrip (tr.subtitle?.getD "")
    if title ≠ "" ∨ artist ≠ "" then
      let parts :=
        (if title ≠ "" then [_to_hashtag title] else []) ++
        (if artist ≠ "" then
          (((artistSplit artist).map pyStrip).filter
            (fun n => n != "")).map _to_hashtag
         else []) ++ [MUSIC_TAGS]
      joinSpace parts
    else DEFAULT_TAGS
  | _ => DEFAULT_TAGS

/-- C7 counterexample — a track whose raw title `"(x)"` is non-empty but
normalizes to the empty string does *not* fall back to `DEFAULT_TAGS`: the
output is a bare `"#"` followed by the music tag set. -/
theorem c7_counterexample :
    build_description (.withTrack ⟨some "(x)", some ""⟩) = "# " ++ MUSIC_TAGS ∧
    build_description (.withTrack ⟨some "(x)", some ""⟩) ≠ DEFAULT_TAGS := by
  constructor
  · decide
  · decide

/-- C7 amended — `build_description` returns `DEFAULT_TAGS` when the result
is absent (`None`/falsy), when the dict has no `"track"` key, and when the
*stripped raw* title and artist are both empty; but when normalization
(bracket/punctuation cleaning) empties a non-empty raw title, the output is
a degenerate `"#"` hashtag followed by the music tags, not `DEFAULT_TAGS`. -/
theorem c7_amended :
    build_description .pyNone = DEFAULT_TAGS ∧
    build_description .noTrack = DEFAULT_TAGS ∧
    (∀ tr : Track, pyStrip (tr.title?.getD "") = "" →
      pyStrip (tr.subtitle?.getD "") = "" →
      build_description (.withTrack tr) = DEFAULT_TAGS) ∧
    build_description (.withTrack ⟨some "(x)", some ""⟩) = "# " ++ MUSIC_TAGS := by
  refine ⟨rfl, rfl, ?_, by decide⟩
  intro tr h1 h2
  simp only [build_description, h1, h2]
  simp

/-- Witness for the hypothesis-bearing part of `c7_amended`, at a track
whose raw title is whitespace only. -/
theorem c7_amended_witness :
    pyStrip "  " = "" ∧ pyStrip "" = "" ∧
    build_description (.withTrack ⟨some "  ", some ""⟩) = DEFAULT_TAGS :=
  ⟨by decide, by decide,
    c7_amended.2.2.1 ⟨some "  ", some ""⟩ (by decide) (by decide)⟩

/-- C8 — `build_description` of no result is the default tag set, and on
`{title: "Lover [Official Video]", artist: "A & B"}` it yields `#Lover #A #B`
followed by the fixed music tag set in order; no whitespace-token of the
output has a duplicated leading `#`. -/
theorem c8_build_description :
    build_description .pyNone = DEFAULT_TAGS ∧
    build_description
        (.withTrack ⟨some "Lover [Official Video]", some "A & B"⟩) =
      "#Lover #A #B " ++ MUSIC_TAGS ∧
    ∀ tok ∈ splitOnChar ' ' ("#Lover #A #B " ++ MUSIC_TAGS).toList,
      tok.take 2 ≠ ['#', '#'] := by
  refine ⟨rfl, by decide, by decide⟩

/-! ## Upload module (src/tiktok_uploader/upload.py)

A Python `datetime` is a wall-clock reading (µs) plus an optional fixed UTC
offset (`tzinfo`); `utcoffset()` returns that offset.  Comparisons between
two UTC-aware datetimes compare wall clocks, which then coincide with
instants.  `datetime.utcnow()` is a parameter (`nowAt i` for the `i`-th
video of a batch, since the loop re-reads the clock per video). -/

structure PyDateTime where
  wall : Int
  tz : Option Int
deriving DecidableEq

/-- Model of `datetime.minute` of a wall-clock reading in µs. -/
def wallMinute (wall : Int) : Int := (wall.ediv 60000000).emod 60

/-- Model of `_get_valid_schedule_minute(schedule, 5)` from upload.py: when the
minute is not a multiple of 5, add `5 - minute % 5` minutes. -/
def round5 (d : PyDateTime) : PyDateTime :=
  if (wallMinute d.wall).emod 5 = 0 then d
  else ⟨d.wall + (5 - (wallMinute d.wall).emod 5) * 60000000, d.tz⟩

/-- Model of `_check_valid_schedule(schedule)` from upload.py: the schedule must lie
between `utcnow + 15 min + 5 min` margin and `utcnow + 10 days`, and its
minute must be a multiple of 5. -/
def check_valid_schedule (nowUtc : Int) (d : PyDateTime) : Bool :=
  if d.wall < nowUtc + 15 * 60000000 + 5 * 60000000 ∨
      nowUtc + 10 * 86400000000 < d.wall then false
  else if ¬ (wallMinute d.wall).emod 5 = 0 then false
  else true

/-- A video dict as consumed by the `upload_videos` loop (the fields the
schedule/path logic reads). -/
structure UVideo where
  path : String
  schedule : Option PyDateTime
deriving DecidableEq

/-- What the per-video body of `TikTokUploader.upload_videos` decides before
any form interaction.  `errUTC` models the `pytz.UTC.localize(schedule)`
call on an *aware* datetime, which raises
`ValueError("Not naive datetime (tzinfo is already set)")` (documented pytz
behaviour) and is caught by the loop's `except`, appending the video to
`failed`.  A naive schedule is interpreted as local time and converted to
UTC (`astimezone(pytz.UTC)`): its wall clock shifts by the driver-local
offset `localOff`. -/
inductive UDecision
  | skipPath
  | skipTz
  | errUTC
  | skipSched
  | form (sch : Option PyDateTime)
deriving DecidableEq

def videoDecision (pathOk : String → Bool) (localOff : Int) (nowUtc : Int)
    (v : UVideo) : UDecision :=
  if !(pathOk v.path) then .skipPath
  else
    match v.schedule with
    | none => .form none
    | some dt =>
      match dt.tz with
      | none =>
        if check_valid_schedule nowUtc (round5 ⟨dt.wall - localOff, some 0⟩) then
          .form (some (round5 ⟨dt.wall - localOff, some 0⟩))
        else .skipSched
      | some off => if off = 0 then .errUTC else .skipTz

/-- The `for video in videos` loop of `upload_videos`, indexed from `k`.
Returns `(failed, fills)` where `failed` mirrors the returned failed list
and `fills` records the videos for which `complete_upload_form` was
invoked (`formRaises i` tells whether that invocation raised, in which case
the video is also appended to `failed`). -/
def uploadLoopGo (pathOk : String → Bool) (localOff : Int) (nowAt : Nat → Int)
    (formRaises : Nat → Bool) :
    Nat → List UVideo → List (Nat × UVideo) × List (Nat × UVideo)
  | _, [] => ([], [])
  | k, v :: rest =>
    let r := uploadLoopGo pathOk localOff nowAt formRaises (k + 1) rest
    match videoDecision pathOk localOff (nowAt k) v with
    | .form _ =>
      if formRaises k then ((k, v) :: r.1, (k, v) :: r.2)
      else (r.1, (k, v) :: r.2)
    | _ => ((k, v) :: r.1, r.2)

/-- Model of `TikTokUploader.upload_videos`: `_convert_videos_dict` raises
`RuntimeError` before the loop when the list is empty or any path is
invalid (`.error ()`); otherwise the loop runs over every video. -/
def upload_videos_model (pathOk : String → Bool) (localOff : Int)
    (nowAt : Nat → Int) (formRaises : Nat → Bool) (videos : List UVideo) :
    Except Unit (List (Nat × UVideo) × List (Nat × UVideo)) :=
  if videos.isEmpty then .error ()
  else if videos.any (fun v => !(pathOk v.path)) then .error ()
  else .ok (uploadLoopGo pathOk localOff nowAt formRaises 0 videos)

theorem uploadLoopGo_failed_mem (pathOk : String → Bool) (localOff : Int)
    (nowAt : Nat → Int) (formRaises : Nat → Bool) :
    ∀ (vids : List UVideo) (k m : Nat) (v : UVideo),
      vids.get? m = some v →
      (∀ s, videoDecision pathOk localOff (nowAt (k + m)) v ≠ .form s) →
      (k + m, v) ∈ (uploadLoopGo pathOk localOff nowAt formRaises k vids).1 := by
  intro vids
  induction vids with
  | nil => intro k m v hv; simp [List.get?] at hv
  | cons w rest ih =>
    intro k m v hv hdec
    cases m with
    | zero =>
      simp only [List.get?, Option.some.injEq] at hv
      subst hv
      simp only [Nat.add_zero] at hdec ⊢
      rcases hd : videoDecision pathOk localOff (nowAt k) w with
        _ | _ | _ | _ | s
      case form => exact absurd hd (hdec s)
      all_goals simp [uploadLoopGo, hd]
    | succ m =>
      simp only [List.get?] at hv
      have hstep : k + (m + 1) = (k + 1) + m := by omega
      have hmem := ih (k + 1) m v hv (by rw [← hstep]; exact hdec)
      rw [hstep]
      rcases hd : videoDecision pathOk localOff (nowAt k) w with _ | _ | _ | _ | s <;>
        simp only [uploadLoopGo, hd] <;>
        cases hfr : formRaises k <;> simp [hfr, hmem]

theorem uploadLoopGo_fills_shape (pathOk : String → Bool) (localOff : Int)
    (nowAt : Nat → Int) (formRaises : Nat → Bool) :
    ∀ (vids : List UVideo) (k : Nat) (p : Nat × UVideo),
      p ∈ (uploadLoopGo pathOk localOff nowAt formRaises k vids).2 →
      ∃ m w, p = (k + m, w) ∧ vids.get? m = some w ∧
        ∃ s, videoDecision pathOk localOff (nowAt (k + m)) w = .form s := by
  intro vids
  induction vids with
  | nil => intro k p hp; simp [uploadLoopGo] at hp
  | cons w rest ih =>
    intro k p hp
    rcases hd : videoDecision pathOk localOff (nowAt k) w with _ | _ | _ | _ | s
    case form =>
      have hp2 : p = (k, w) ∨ p ∈ (uploadLoopGo pathOk localOff nowAt formRaises (k + 1) rest).2 := by
        cases hfr : formRaises k <;>
          simpa [uploadLoopGo, hd, hfr] using hp
      rcases hp2 with rfl | hp2
      · exact ⟨0, w, by simp, by simp [List.get?], s, by simpa using hd⟩
      · obtain ⟨m, u, rfl, hget, s2, hdec⟩ := ih (k + 1) p hp2
        exact ⟨m + 1, u, by rw [Prod.mk.injEq]; exact ⟨by omega, rfl⟩,
          by simpa [List.get?] using hget, s2, by rw [show k + (m + 1) = k + 1 + m by omega]; exact hdec⟩
    all_goals
      simp only [uploadLoopGo, hd] at hp
      obtain ⟨m, u, rfl, hget, s2, hdec⟩ := ih (k + 1) p hp
      exact ⟨m + 1, u, by rw [Prod.mk.injEq]; exact ⟨by omega, rfl⟩,
        by simpa [List.get?] using hget, s2, by rw [show k + (m + 1) = k + 1 + m by omega]; exact hdec⟩

/-- C9 — a video carrying a (naive, locally-interpreted) schedule that,
after UTC conversion and rounding up to the next 5-minute multiple, lies
less than 20 minutes in the future or more than 10 days ahead, is returned
in the failed list and `complete_upload_form` is never invoked for it
(provided the batch passes the up-front `_convert_videos_dict` path check,
which otherwise aborts the whole call). -/
theorem upload_videos_bad_schedule_rejected
    (pathOk : String → Bool) (localOff : Int) (nowAt : Nat → Int)
    (formRaises : Nat → Bool) (videos : List UVideo)
    (i : Nat) (v : UVideo) (dt : PyDateTime)
    (hall : ∀ w ∈ videos, pathOk w.path = true)
    (hv : videos.get? i = some v)
    (hs : v.schedule = some dt) (hn : dt.tz = none)
    (hbad : (round5 ⟨dt.wall - localOff, some 0⟩).wall < nowAt i + 20 * 60000000 ∨
        nowAt i + 10 * 86400000000 < (round5 ⟨dt.wall - localOff, some 0⟩).wall) :
    ∃ failed fills,
      upload_videos_model pathOk localOff nowAt formRaises videos =
        .ok (failed, fills) ∧ (i, v) ∈ failed ∧ (i, v) ∉ fills := by
  have hvm : v ∈ videos := List.get?_mem hv
  have hpok : pathOk v.path = true := hall v hvm
  have hne : videos.isEmpty = false := by
    cases videos with
    | nil => simp [List.get?] at hv
    | cons _ _ => rfl
  have hany : videos.any (fun w => !(pathOk w.path)) = false := by
    rw [List.any_eq_false]
    intro w hw
    simp [hall w hw]
  have hcheck : check_valid_schedule (nowAt i)
      (round5 ⟨dt.wall - localOff, some 0⟩) = false := by
    unfold check_valid_schedule
    have hbad2 : (round5 ⟨dt.wall - localOff, some 0⟩).wall <
          nowAt i + 15 * 60000000 + 5 * 60000000 ∨
        nowAt i + 10 * 86400000000 <
          (round5 ⟨dt.wall - localOff, some 0⟩).wall := by
      rcases hbad with h | h
      · exact Or.inl (by omega)
      · exact Or.inr h
    rw [if_pos hbad2]
  have hdec : videoDecision pathOk localOff (nowAt i) v = .skipSched := by
    unfold videoDecision
    rw [hpok, hs]
    simp [hn, hcheck]
  refine ⟨(uploadLoopGo pathOk localOff nowAt formRaises 0 videos).1,
    (uploadLoopGo pathOk localOff nowAt formRaises 0 videos).2, ?_, ?_, ?_⟩
  · simp [upload_videos_model, hne, hany]
  · have := uploadLoopGo_failed_mem pathOk localOff nowAt formRaises videos 0 i v
      hv (by
        intro s h
        rw [Nat.zero_add] at h
        rw [hdec] at h
        exact UDecision.noConfusion h)
    simpa using this
  · intro hmem
    obtain ⟨m, w, heq, hget, s, hform⟩ :=
      uploadLoopGo_fills_shape pathOk localOff nowAt formRaises videos 0
        (i, v) hmem
    rw [Prod.mk.injEq] at heq
    obtain ⟨hi, hw⟩ := heq
    rw [Nat.zero_add] at hi
    subst hi
    subst hw
    rw [Nat.zero_add, hdec] at hform
    exact UDecision.noConfusion hform

/-- Witness for C9: one video with a valid path and a naive schedule equal
to the current instant (so the rounded schedule is less than 20 minutes in
the future). -/
theorem upload_videos_bad_schedule_rejected_witness :
    ((round5 ⟨(0 : Int) - 0, some 0⟩).wall < (0 : Int) + 20 * 60000000 ∨
      (0 : Int) + 10 * 86400000000 < (round5 ⟨(0 : Int) - 0, some 0⟩).wall) ∧
    (∃ failed fills,
      upload_videos_model (fun _ => true) 0 (fun _ => 0) (fun _ => false)
          [⟨"a.mp4", some ⟨0, none⟩⟩] = .ok (failed, fills) ∧
      (0, (⟨"a.mp4", some ⟨0, none⟩⟩ : UVideo)) ∈ failed ∧
      (0, (⟨"a.mp4", some ⟨0, none⟩⟩ : UVideo)) ∉ fills) :=
  ⟨Or.inl (by decide),
    upload_videos_bad_schedule_rejected (fun _ => true) 0 (fun _ => 0)
      (fun _ => false) [⟨"a.mp4", some ⟨0, none⟩⟩] 0
      ⟨"a.mp4", some ⟨0, none⟩⟩ ⟨0, none⟩ (by decide) rfl rfl rfl
      (Or.inl (by decide))⟩

/-- C10 — evidence of the code bug: a *UTC-aware* schedule (`tz = some 0`)
is also rejected, because `pytz.UTC.localize` raises `ValueError` on any
aware datetime, so the video lands in the failed list with no form
interaction — despite the loop's own error message declaring that the
schedule "must be naive or aware with UTC timezone".  A non-zero-offset
aware schedule (here UTC−5) is likewise rejected, as the claim states. -/
theorem upload_videos_aware_schedules_fail :
    upload_videos_model (fun _ => true) 0 (fun _ => 0) (fun _ => false)
      [⟨"a.mp4", some ⟨1200000000, some 0⟩⟩,
       ⟨"b.mp4", some ⟨1200000000, some (-18000000000)⟩⟩] =
    .ok ([(0, ⟨"a.mp4", some ⟨1200000000, some 0⟩⟩),
          (1, ⟨"b.mp4", some ⟨1200000000, some (-18000000000)⟩⟩)], []) := by
  rfl

/-! ## Run coordinator: `upload_all` and `main` (process_videos.py) -/

/-- The persisted `uploaded.json` document:
`{uploaded: [filename, ...], last_slot: ISO-str | None}` (the slot is kept
as its instant here). -/
structure RunState where
  uploaded : List String
  last_slot : Option Nat
deriving DecidableEq

/-- The observable behaviour of one `uploader.upload_video(...)` call:
it either returns a boolean (`True` iff its internal failed list was
empty) or raises. -/
inductive PyCall
  | ret (b : Bool)
  | raises
deriving DecidableEq

/-- Model of `TikTokUploader.upload_video`: wraps the video in a one-element batch
and returns `len(failed_list) == 0`; a `RuntimeError` escaping
`upload_videos` (e.g. from `_convert_videos_dict`) propagates. -/
def upload_video_model (pathOk : String → Bool) (localOff : Int)
    (nowAt : Nat → Int) (formRaises : Nat → Bool) (v : UVideo) : PyCall :=
  match upload_videos_model pathOk localOff nowAt formRaises [v] with
  | .error _ => .raises
  | .ok (failed, _) => .ret failed.isEmpty

/-- The `for (video, description), slot in zip(jobs, slots)` loop of
`upload_all`: when `upload_video` returns (with *either* boolean!) the
video's name is appended to `state.uploaded`, `last_slot` is set and the
state saved; only a raised exception records the video as failed. -/
def upload_all_go (outcome : String × Nat → PyCall) :
    List (String × Nat) → RunState → List String → RunState × List String
  | [], st, failed => (st, failed)
  | j :: rest, st, failed =>
    match outcome j with
    | .ret _ =>
      upload_all_go outcome rest ⟨st.uploaded ++ [j.1], some j.2⟩ failed
    | .raises => upload_all_go outcome rest st (failed ++ [j.1])

/-- Model of `upload_all(jobs, slots, state)` from process_videos.py, with the
`uploader.upload_video` call abstracted as `outcome`.  Returns the final
persisted state and the local `failed` list. -/
def upload_all_model (jobs : List (String × Nat))
    (outcome : String × Nat → PyCall) (st : RunState) :
    RunState × List String :=
  upload_all_go outcome jobs st []

/-- C3 — evidence of the code bug: `upload_video` *returns `False`* for a
video whose schedule is invalid (its internal failed list is non-empty, so
nothing was published), yet `upload_all` ignores the returned boolean: the
video's name is still appended to the persisted `uploaded` list,
`last_slot` is still advanced, and the run's `failed` list stays empty. -/
theorem upload_all_persists_unpublished_video :
    upload_video_model (fun _ => true) 0 (fun _ => 0) (fun _ => false)
      ⟨"clip.mp4", some ⟨0, none⟩⟩ = .ret false ∧
    upload_all_model [("clip.mp4", 9 * usPerHour)] (fun _ => PyCall.ret false)
        ⟨[], none⟩ =
      (⟨["clip.mp4"], some (9 * usPerHour)⟩, []) := by
  constructor
  · rfl
  · rfl

/-! ## Form orchestrator: `_set_video` and `complete_upload_form`
(src/tiktok_uploader/upload.py) -/

/-- Outcome of one attempt of the `_set_video` retry loop: the process
confirmation appeared, the bounded wait raised `PlaywrightTimeoutError`
(printed, loop continues), or another exception occurred (re-raised as
`FailedToUpload`). -/
inductive VAttempt
  | success
  | timeoutE
  | otherE
deriving DecidableEq

inductive SetVideoRes
  | ok
  | raised
  | fellThrough
deriving DecidableEq

/-- Model of `_set_video(page, path, num_retries)`: iterate the attempts
(`num_retries` of them).  A successful attempt returns; a timeout prints
and continues; any other exception raises `FailedToUpload`.  When *every*
attempt times out the loop ends and the function returns normally
(`fellThrough`) — no exception is raised. -/
def set_video_model : List VAttempt → SetVideoRes
  | [] => .fellThrough
  | .success :: _ => .ok
  | .timeoutE :: rest => set_video_model rest
  | .otherE :: _ => .raised

/-- The steps of `complete_upload_form`, in source order. -/
inductive FormStep
  | navigate
  | removeCookies
  | dismissPopup
  | setVideo
  | dismissPopup2
  | setSound
  | setCover
  | removeSplit
  | setInteractivity
  | setDescription
  | setVisibility
  | setSchedule
  | addProduct
  | postVideo
deriving DecidableEq

/-- Model of `complete_upload_form(page, path, description, schedule, ...)`:
a straight-line sequence of steps in which only `_go_to_upload`,
`_set_video` (via a non-timeout exception), `_set_schedule_video` and
`_post_video` can raise; the popup/cookie/split/interactivity/description
steps swallow their own exceptions.  Returns the executed steps and
whether the call raised.  Note that a `fellThrough` result of `_set_video`
does *not* stop the sequence. -/
def complete_upload_form_model (navOk : Bool) (attempts : List VAttempt)
    (sound cover skipSplit nonDefaultVisibility : Bool)
    (schedule : Bool) (scheduleOk : Bool) (product : Bool) (postOk : Bool) :
    List FormStep × Bool :=
  if !navOk then ([.navigate], true)
  else
    match set_video_model attempts with
    | .raised => ([.navigate, .removeCookies, .dismissPopup, .setVideo], true)
    | _ =>
      let steps1 :=
        [FormStep.navigate, .removeCookies, .dismissPopup, .setVideo,
          .dismissPopup2] ++
        (if sound then [FormStep.setSound] else []) ++
        (if cover then [FormStep.setCover] else []) ++
        (if skipSplit then [] else [FormStep.removeSplit]) ++
        [FormStep.setInteractivity, FormStep.setDescription] ++
        (if nonDefaultVisibility then [FormStep.setVisibility] else [])
      if schedule then
        if scheduleOk then
          (steps1 ++ [FormStep.setSchedule] ++
            (if product then [FormStep.addProduct] else []) ++
            [FormStep.postVideo], !postOk)
        else (steps1 ++ [FormStep.setSchedule], true)
      else
        (steps1 ++ (if product then [FormStep.addProduct] else []) ++
          [FormStep.postVideo], !postOk)

/-- C5 — evidence of the code bug: with `num_retries = 1` (the value
`upload_video` passes) and the single attempt timing out, `_set_video`
returns normally instead of raising, and `complete_upload_form` proceeds
through the remaining form-filling steps and clicks Post (here with a
schedule set and the remaining steps succeeding): the run ends without an
exception and `postVideo` is among the executed steps. -/
theorem set_video_timeout_falls_through :
    set_video_model [.timeoutE] = .fellThrough ∧
    (complete_upload_form_model true [.timeoutE] false false false false
        true true false true).2 = false ∧
    FormStep.postVideo ∈ (complete_upload_form_model true [.timeoutE] false
        false false false true true false true).1 := by
  refine ⟨rfl, rfl, ?_⟩
  decide

/-! ## Schedule-setter read-back verification
(`__verify_date_picked_is_correct`, `__verify_time_picked_is_correct`) -/

/-- Python `int(s)`: optional surrounding whitespace, an optional sign,
then at least one ASCII digit; anything else raises `ValueError`. -/
def pyInt? (s : String) : Option Int :=
  match pyStripList s.toList with
  | [] => none
  | c :: rest =>
    let digits := if c == '-' || c == '+' then rest else c :: rest
    if digits.isEmpty || digits.any (fun d => !d.isDigit) then none
    else
      let n : Nat := digits.foldl (fun acc d => 10 * acc + (d.toNat - 48)) 0
      some (if c == '-' then -(n : Int) else (n : Int))

/-- Model of `int(value.split("-")[1]), int(value.split("-")[2])` — `none` when an
`IndexError`/`ValueError` occurs. -/
def parsed_date (raw : String) : Option (Int × Int) :=
  match (splitOnChar '-' raw.toList).get? 1,
      (splitOnChar '-' raw.toList).get? 2 with
  | some ms, some ds =>
    match pyInt? (String.mk ms), pyInt? (String.mk ds) with
    | some m, some d => some (m, d)
    | _, _ => none
  | _, _ => none

/-- Model of `int(value.split(":")[0]), int(value.split(":")[1])`. -/
def parsed_time (raw : String) : Option (Int × Int) :=
  match (splitOnChar ':' raw.toList).get? 0,
      (splitOnChar ':' raw.toList).get? 1 with
  | some hs, some ms =>
    match pyInt? (String.mk hs), pyInt? (String.mk ms) with
    | some h, some m => some (h, m)
    | _, _ => none
  | _, _ => none

/-- Model of `__verify_date_picked_is_correct`: read the input's `value` attribute
(`or ""`), parse `YYYY-MM-DD`; a parse failure is *logged and silently
accepted* (`none`); a parsed value is compared with the intent and a
mismatch raises (`some msg`). -/
def verify_date_picked (attr : Option String) (month day : Int) :
    Option String :=
  match parsed_date (attr.getD "") with
  | none => none
  | some (m, d) =>
    if m = month ∧ d = day then none else some "Date picker mismatch"

/-- Model of `__verify_time_picked_is_correct`, same shape for `HH:MM`. -/
def verify_time_picked (attr : Option String) (hour minute : Int) :
    Option String :=
  match parsed_time (attr.getD "") with
  | none => none
  | some (h, m) =>
    if h = hour ∧ m = minute then none else some "Time picker mismatch"

/-- C6 counterexample — a read-back value of `""` (e.g. a missing `value`
attribute) does not encode the intended month/day `2-26`, yet the
verifier returns without raising: the disagreement is silently accepted. -/
theorem verify_date_silent_on_unparseable :
    verify_date_picked (some "") 2 26 = none ∧
    parsed_date "" ≠ some (2, 26) := by
  constructor
  · rfl
  · decide

/-- C6 amended — after the Schedule Setter picks the date and time, a
read-back that *parses* as month/day (resp. hour/minute) integers and
disagrees with the intent raises an error that is fatal for the item, and
a parsed read-back is accepted exactly when it equals the intent; but a
read-back that fails to parse is logged and silently accepted without
verification. -/
theorem verify_pickers_amended (attr : Option String)
    (month day hour minute : Int) :
    (∀ m d, parsed_date (attr.getD "") = some (m, d) →
      (verify_date_picked attr month day = none ↔ (m = month ∧ d = day))) ∧
    (parsed_date (attr.getD "") = none →
      verify_date_picked attr month day = none) ∧
    (∀ h mi, parsed_time (attr.getD "") = some (h, mi) →
      (verify_time_picked attr hour minute = none ↔ (h = hour ∧ mi = minute))) ∧
    (parsed_time (attr.getD "") = none →
      verify_time_picked attr hour minute = none) := by
  refine ⟨?_, ?_, ?_, ?_⟩
  · intro m d hp
    simp only [verify_date_picked, hp]
    by_cases hc : m = month ∧ d = day
    · simp [hc]
    · simp [hc]
  · intro hp
    simp [verify_date_picked, hp]
  · intro h mi hp
    simp only [verify_time_picked, hp]
    by_cases hc : h = hour ∧ mi = minute
    · simp [hc]
    · simp [hc]
  · intro hp
    simp [verify_time_picked, hp]

/-- Witness for `verify_pickers_amended` at the widget value
`"2026-02-26"` with intent month 2, day 26. -/
theorem verify_pickers_amended_witness :
    parsed_date ((some "2026-02-26").getD "") = some (2, 26) ∧
    (verify_date_picked (some "2026-02-26") 2 26 = none ↔
      ((2 : Int) = 2 ∧ (26 : Int) = 26)) :=
  ⟨by decide,
    (verify_pickers_amended (some "2026-02-26") 2 26 0 0).1 2 26 (by decide)⟩

/-- Model of `main`'s skip of already-uploaded files:
`videos = [v for v in all_videos if v.name not in already_done]` with
`already_done = set(state.get("uploaded", []))`.  The same filtered list is
the one passed to `next_upload_slots` and to the uploader. -/
def main_pending (all_videos : List String) (st : RunState) : List String :=
  all_videos.filter (fun v => !(st.uploaded.contains v))

/-- C4 — idempotence of a re-run: any filename recorded in the persisted
`uploaded` list is excluded from the pending list that `main` feeds to
slot allocation and to the uploader. -/
theorem main_pending_excludes_uploaded (all_videos : List String)
    (st : RunState) (f : String) (hf : f ∈ st.uploaded) :
    f ∉ main_pending all_videos st := by
  intro hmem
  rw [main_pending, List.mem_filter] at hmem
  have h2 := hmem.2
  simp only [Bool.not_eq_true', List.contains, List.elem_eq_mem,
    decide_eq_false_iff_not] at h2
  exact h2 hf

/-- Witness for C4 at a state that already contains `"a.mp4"`. -/
theorem main_pending_excludes_uploaded_witness :
    "a.mp4" ∈ (RunState.mk ["a.mp4"] none).uploaded ∧
    "a.mp4" ∉ main_pending ["a.mp4", "b.mp4"] (RunState.mk ["a.mp4"] none) :=
  ⟨by decide,
    main_pending_excludes_uploaded ["a.mp4", "b.mp4"]
      (RunState.mk ["a.mp4"] none) "a.mp4" (by decide)⟩
